import Mathlib

/-!
Verification of the Session & Job Orchestration subsystem of the
deep-analysis backend (`backend/api_layer/session_manager.py` and
`backend/api_layer/job_manager.py`, with the `/create_job` route of
`backend/api_layer/blueprints/sessions.py`).

The Python code is shallowly embedded:

* host paths (`os.path.join` chains) become `HPath := List String`
  (one component per segment);
* the on-disk directory tree becomes `Fs`, an association list from a
  directory path to the list of plain-file names it contains
  (`shutil.rmtree` removes a directory and its whole subtree,
  `os.makedirs(..., exist_ok=True)` inserts a missing directory);
* the in-memory tables `SessionManager.sessions` / `JobManager.jobs`
  become association lists keyed by id; the JSON snapshot files are
  modelled as always in sync with the in-memory table (the code rewrites
  the whole file under the same lock after every mutation);
* `threading.Lock` is a `Bool` flag; an operation that would block
  forever on an already-held non-reentrant lock returns `none`;
* wall-clock values (`time.time()`) are `Int` parameters;
* Docker, the Firestore document store, the blob store and the token
  ledger are external collaborators: their observable calls are recorded
  in an `Effects` record, and their answers (container running or not,
  user-token lookup, HTTP response of the container RPC) are input
  parameters of the embedded functions.
-/

/-- A host path, one list element per path component. -/
abbrev HPath := List String

/-- A user-identity dictionary: `user_info.get('email')`.  `none` models a
dictionary without an `email` key. -/
structure UInfo where
  email : Option String
deriving Repr, DecidableEq

/-- The chain `d.get('user_info', {}).get('email', '')` used throughout the
source: an absent dictionary or an absent key defaults to `""`. -/
def uinfoEmail : Option UInfo → String
  | none => ""
  | some u => u.email.getD ""

/-- Python's `str.lower()` (per-character ASCII lowering, evaluated
structurally). -/
def strLower (s : String) : String := ⟨s.data.map Char.toLower⟩

/-- Case-insensitive string comparison, `a.lower() == b.lower()`. -/
def lowerEq (a b : String) : Bool := strLower a == strLower b

/-- The host directory tree: directory path ↦ names of the plain files
directly inside it.  A directory absent from the list does not exist. -/
structure Fs where
  dirs : List (HPath × List String)
deriving Repr, DecidableEq

/-- Directory lookup on the underlying association list. -/
def lookupDirs : List (HPath × List String) → HPath → Option (List String)
  | [], _ => none
  | e :: tl, p => if e.1 = p then some e.2 else lookupDirs tl p

/-- `os.path.exists` / content lookup for a directory. -/
def Fs.lookup (fs : Fs) (p : HPath) : Option (List String) :=
  lookupDirs fs.dirs p

/-- `[f for f in os.listdir(p) if os.path.isfile(...)]`: the plain files of
`p`, `[]` when the directory does not exist. -/
def Fs.filesIn (fs : Fs) (p : HPath) : List String :=
  (fs.lookup p).getD []

/-- `shutil.rmtree p`: removes `p` and every directory below it. -/
def Fs.rmtree (fs : Fs) (p : HPath) : Fs :=
  ⟨fs.dirs.filter (fun e => !(p.isPrefixOf e.1))⟩

/-- `os.makedirs(p, exist_ok=True)` (parents elided: the model only ever
looks directories up by their full path). -/
def Fs.mkdirs (fs : Fs) (p : HPath) : Fs :=
  if (fs.lookup p).isSome then fs else ⟨fs.dirs ++ [(p, [])]⟩

/-- Write one plain file into an existing directory (overwriting keeps the
single name); models the external uploader and `shutil.copy2`. -/
def Fs.putFile (fs : Fs) (p : HPath) (f : String) : Fs :=
  ⟨fs.dirs.map (fun e =>
    if e.1 = p then (e.1, if f ∈ e.2 then e.2 else e.2 ++ [f]) else e)⟩

/-- `backend/execution_layer/input_data` (both managers resolve the same
absolute base). -/
def input_data_base : HPath := ["backend", "execution_layer", "input_data"]

/-- `backend/execution_layer/output_data`. -/
def output_data_base : HPath := ["backend", "execution_layer", "output_data"]

/-- A session's shared input directory `input_data/{session_id}`. -/
def inputDataDir (sid : String) : HPath := input_data_base ++ [sid]

/-- A session's output root `output_data/{session_id}`. -/
def outputDataDir (sid : String) : HPath := output_data_base ++ [sid]

/-- One row of `SessionManager.sessions`.  `container_obj` records whether a
live container object is attached (`container_obj` key not `None`). -/
structure SessionRow where
  container_id : String
  container_obj : Bool
  container_ip : String
  container_port : Option Nat
  created_at : Int
  status : String
  output_dir : HPath
  user_info : Option UInfo
deriving Repr, DecidableEq

/-- `self.sessions.get(session_id)` on the association list. -/
def lookupSession (l : List (String × SessionRow)) (sid : String) :
    Option SessionRow :=
  match l.find? (fun e => e.1 == sid) with
  | some e => some e.2
  | none => none

/-- `SessionManager.check_session_ownership`: unknown session → `False`;
otherwise case-insensitive comparison of the stored owner email
(defaulting to `""`) against the caller's email. -/
def check_session_ownership (sessions : List (String × SessionRow))
    (session_id : String) (user_email : String) : Bool :=
  match lookupSession sessions session_id with
  | none => false
  | some row => lowerEq (uinfoEmail row.user_info) user_email

/-- C10: `CheckOwnership` reduces to case-insensitive equality of the stored
owner email (defaulting to `""` when the session has no owner info) against
the caller's email; a registered session with no stored owner email accepts
the empty-string caller, and an unknown `session_id` yields `false`. -/
theorem c10_ownership (sessions : List (String × SessionRow))
    (sid : String) :
    (lookupSession sessions sid = none →
      ∀ e : String, check_session_ownership sessions sid e = false) ∧
    (∀ row : SessionRow, lookupSession sessions sid = some row →
      (∀ e : String, check_session_ownership sessions sid e =
        lowerEq (uinfoEmail row.user_info) e) ∧
      (uinfoEmail row.user_info = "" →
        check_session_ownership sessions sid "" = true)) := by
  constructor
  · intro h e
    simp [check_session_ownership, h]
  · intro row h
    constructor
    · intro e
      simp [check_session_ownership, h]
    · intro hnone
      simp [check_session_ownership, h, hnone, lowerEq]

/-- Witness for `c10_ownership`: a two-row registry, one row with no owner
info at all; the empty-email caller owns it, and an unknown id is refused. -/
theorem c10_ownership_witness :
    check_session_ownership
      [("s1", { container_id := "c1", container_obj := true,
                container_ip := "", container_port := some 5100,
                created_at := 0, status := "active",
                output_dir := outputDataDir "s1", user_info := none })]
      "s1" "" = true ∧
    check_session_ownership
      [("s1", { container_id := "c1", container_obj := true,
                container_ip := "", container_port := some 5100,
                created_at := 0, status := "active",
                output_dir := outputDataDir "s1", user_info := none })]
      "ghost" "a@x.com" = false := by
  constructor
  · exact ((c10_ownership
      [("s1", { container_id := "c1", container_obj := true,
                container_ip := "", container_port := some 5100,
                created_at := 0, status := "active",
                output_dir := outputDataDir "s1", user_info := none })]
      "s1").2
      { container_id := "c1", container_obj := true,
        container_ip := "", container_port := some 5100,
        created_at := 0, status := "active",
        output_dir := outputDataDir "s1", user_info := none }
      (by decide)).2 (by decide)
  · exact (c10_ownership
      [("s1", { container_id := "c1", container_obj := true,
                container_ip := "", container_port := some 5100,
                created_at := 0, status := "active",
                output_dir := outputDataDir "s1", user_info := none })]
      "ghost").1 (by decide) "a@x.com"

/-- The `SessionManager` service state: the in-memory table, its coarse
lock (`threading.Lock`, non-reentrant), the host directory tree and the
set of existing Docker containers. -/
structure SMState where
  sessions : List (String × SessionRow)
  lock : Bool
  fs : Fs
  containers : List String
deriving Repr, DecidableEq

/-- `self.sessions[sid] = row` when `sid` is already a key: dictionary
assignment replaces the row in place. -/
def setRow (l : List (String × SessionRow)) (sid : String) (r : SessionRow) :
    List (String × SessionRow) :=
  l.map (fun e => if e.1 == sid then (sid, r) else e)

/-- Python dictionary assignment `self.sessions[sid] = row`. -/
def insertSessionRow (l : List (String × SessionRow)) (sid : String)
    (r : SessionRow) : List (String × SessionRow) :=
  if (lookupSession l sid).isSome then setRow l sid r else l ++ [(sid, r)]

/-- `SessionManager.cleanup_session`.  Acquires the non-reentrant registry
lock (`none` = the caller blocks forever because the lock is already held).
The whole body is wrapped in `try/except → return False`: when the row has
no live container object (`container_obj` is `None`, e.g. an
already-cleaned row), `container.stop()` raises immediately, so the call
returns `False` with nothing changed.  Otherwise it stops and removes the
container (the Docker calls on a live container object are modelled as
succeeding), marks the row `cleaned` (keeping it), removes the session's
output directory, and touches nothing else on disk — the input directory is
only listed, never deleted. -/
def cleanup_session (st : SMState) (sid : String) :
    Option (Bool × SMState) :=
  if st.lock then none else
  match lookupSession st.sessions sid with
  | none => some (false, { st with lock := false })
  | some row =>
    if row.container_obj then
      some (true,
        { sessions := setRow st.sessions sid
            { row with status := "cleaned", container_obj := false },
          lock := false,
          fs := if (st.fs.lookup row.output_dir).isSome
                then st.fs.rmtree row.output_dir else st.fs,
          containers := st.containers.erase row.container_id })
    else some (false, { st with lock := false })

/-- The loop body of `SessionManager.cleanup_inactive_sessions`: apply
`cleanup_session` to each collected id in turn, still holding the outer
lock (`none` propagates a block). -/
def cleanupSessionList (st : SMState) : List String → Option SMState
  | [] => some st
  | sid :: rest =>
    match cleanup_session st sid with
    | none => none
    | some (_, st2) => cleanupSessionList st2 rest

/-- `SessionManager.cleanup_inactive_sessions`: takes the registry lock,
collects every row older than `max_age_hours`, then calls
`cleanup_session` on each — while still holding the same non-reentrant
lock. -/
def cleanup_inactive_sessions (st : SMState) (now : Int)
    (max_age_hours : Int) : Option SMState :=
  if st.lock then none else
  (cleanupSessionList { st with lock := true }
    ((st.sessions.filter
      (fun e => decide (now - e.2.created_at > max_age_hours * 3600))).map
      (fun e => e.1))).map
    (fun st2 => { st2 with lock := false })

/-- A one-session registry whose session is a day old. -/
def c5State : SMState :=
  { sessions := [("s_old",
      { container_id := "c9", container_obj := true, container_ip := "",
        container_port := some 5100, created_at := 0, status := "active",
        output_dir := outputDataDir "s_old", user_info := none })],
    lock := false,
    fs := ⟨[(outputDataDir "s_old", ["report.html"])]⟩,
    containers := ["c9"] }

/-- C5: `cleanup_inactive_sessions` collects the rows older than `maxAge`
while holding the registry lock and then calls `cleanup_session`, which
re-acquires the same non-reentrant `threading.Lock`.  At any registry with
at least one over-age row the call therefore deadlocks (`none`): it never
terminates and no row is cleaned, contradicting the claim that it is a
terminating operation that cleans every over-age row. -/
theorem c5_cleanup_inactive_deadlocks :
    cleanup_inactive_sessions c5State 90000 24 = none ∧
    (c5State.sessions.filter
      (fun e => decide ((90000 : Int) - e.2.created_at > 24 * 3600))).map
      (fun e => e.1) = ["s_old"] ∧
    cleanup_session c5State "s_old" ≠ none := by
  decide

/-- The removed directory itself is gone after `rmtree`. -/
theorem Fs.lookup_rmtree_self (fs : Fs) (p : HPath) :
    (fs.rmtree p).lookup p = none := by
  simp only [Fs.lookup, Fs.rmtree]
  induction fs.dirs with
  | nil => rfl
  | cons e tl ih =>
    cases hpe : p.isPrefixOf e.1 with
    | true => simpa [List.filter_cons, hpe] using ih
    | false =>
      have hne : e.1 ≠ p := by
        intro hh
        rw [hh] at hpe
        rw [List.isPrefixOf_iff_prefix.mpr (List.prefix_refl p)] at hpe
        exact Bool.noConfusion hpe
      simpa [List.filter_cons, hpe, lookupDirs, hne] using ih

/-- Directories not below `p` are untouched by `rmtree p`. -/
theorem Fs.lookup_rmtree_of_not_prefix (fs : Fs) (p q : HPath)
    (h : ¬ p <+: q) : (fs.rmtree p).lookup q = fs.lookup q := by
  simp only [Fs.lookup, Fs.rmtree]
  induction fs.dirs with
  | nil => rfl
  | cons e tl ih =>
    cases hpe : p.isPrefixOf e.1 with
    | true =>
      have hne : e.1 ≠ q := by
        intro hh
        rw [hh] at hpe
        exact h (List.isPrefixOf_iff_prefix.mp hpe)
      simpa [List.filter_cons, hpe, lookupDirs, hne] using ih
    | false =>
      by_cases he : e.1 = q
      · have hpe2 : List.isPrefixOf p q = false := by rw [← he]; exact hpe
        simp [List.filter_cons, hpe, hpe2, lookupDirs, he]
      · simpa [List.filter_cons, hpe, lookupDirs, he] using ih

/-- Replacing the row stored at `sid` makes later lookups return it. -/
theorem lookupSession_setRow (l : List (String × SessionRow)) (sid : String)
    (r row : SessionRow) (h : lookupSession l sid = some row) :
    lookupSession (setRow l sid r) sid = some r := by
  induction l with
  | nil => simp [lookupSession] at h
  | cons e tl ih =>
    by_cases he : (e.1 == sid) = true
    · simp [lookupSession, setRow, List.find?, he]
    · have h' : lookupSession tl sid = some row := by
        simpa [lookupSession, List.find?, he] using h
      have := ih h'
      simpa [lookupSession, setRow, List.find?, he] using this

/-- A session's output root is never a path-prefix of any session's input
directory (they differ at the third component). -/
theorem outputDir_not_prefix_inputDir (s t : String) :
    ¬ (outputDataDir s) <+: (inputDataDir t) := by
  intro hp
  rcases hp with ⟨r, hr⟩
  have h2 : "output_data" = "input_data" := by
    have := congrArg (fun l : HPath => l[2]?) hr
    simp only [outputDataDir, inputDataDir, output_data_base,
      input_data_base, List.cons_append, List.nil_append,
      List.getElem?_cons_succ, List.getElem?_cons_zero] at this
    exact Option.some.inj this
  exact absurd h2 (by decide)

/-- C7: for every registered session with a live container object (any
row without one makes the wrapped `try` raise and return `False` having
changed nothing), `cleanup_session` returns `True`, removes the container,
keeps the row but marks it `cleaned` with the container object detached,
deletes the session's output directory, and leaves every directory not
below that output root — in particular every session input directory —
untouched. -/
theorem c7_cleanup_session_effects (st : SMState) (sid : String)
    (row : SessionRow) (hl : st.lock = false)
    (hs : lookupSession st.sessions sid = some row)
    (hobj : row.container_obj = true)
    (hout : row.output_dir = outputDataDir sid) :
    ∃ st2 : SMState,
      cleanup_session st sid = some (true, st2) ∧
      lookupSession st2.sessions sid =
        some { row with status := "cleaned", container_obj := false } ∧
      st2.containers = st.containers.erase row.container_id ∧
      st2.fs.lookup (outputDataDir sid) = none ∧
      (∀ p : HPath, ¬ (outputDataDir sid) <+: p →
        st2.fs.lookup p = st.fs.lookup p) ∧
      (∀ t : String,
        st2.fs.lookup (inputDataDir t) = st.fs.lookup (inputDataDir t)) ∧
      st2.lock = false := by
  have hstep : cleanup_session st sid = some (true,
      { sessions := setRow st.sessions sid
          { row with status := "cleaned", container_obj := false },
        lock := false,
        fs := if (st.fs.lookup row.output_dir).isSome
              then st.fs.rmtree row.output_dir else st.fs,
        containers := st.containers.erase row.container_id }) := by
    simp [cleanup_session, hl, hs, hobj]
  refine ⟨_, hstep, ?_, rfl, ?_, ?_, ?_, rfl⟩
  · exact lookupSession_setRow st.sessions sid _ row hs
  · by_cases hex : (st.fs.lookup row.output_dir).isSome = true
    · rw [if_pos hex, ← hout]
      exact Fs.lookup_rmtree_self st.fs row.output_dir
    · rw [if_neg hex, ← hout]
      exact Option.not_isSome_iff_eq_none.mp hex
  · intro p hp
    by_cases hex : (st.fs.lookup row.output_dir).isSome = true
    · rw [if_pos hex, hout]
      exact Fs.lookup_rmtree_of_not_prefix st.fs (outputDataDir sid) p hp
    · rw [if_neg hex]
  · intro t
    by_cases hex : (st.fs.lookup row.output_dir).isSome = true
    · rw [if_pos hex, hout]
      exact Fs.lookup_rmtree_of_not_prefix st.fs (outputDataDir sid)
        (inputDataDir t) (outputDir_not_prefix_inputDir sid t)
    · rw [if_neg hex]

/-- The row of the `c7` witness scenario. -/
def c7Row : SessionRow :=
  { container_id := "c1", container_obj := true, container_ip := "",
    container_port := some 5100, created_at := 0, status := "active",
    output_dir := outputDataDir "s1", user_info := none }

/-- The registry of the `c7` witness scenario: one active session with one
uploaded input file and one produced report. -/
def c7St : SMState :=
  { sessions := [("s1", c7Row)], lock := false,
    fs := ⟨[(inputDataDir "s1", ["f.pkl"]),
            (outputDataDir "s1", ["analysis_report.html"])]⟩,
    containers := ["c1"] }

/-- Witness for `c7_cleanup_session_effects`: cleaning the concrete session
keeps its input directory (with its file) and deletes its output root. -/
theorem c7_cleanup_session_effects_witness :
    (cleanup_session c7St "s1").map
      (fun r => r.2.fs.lookup (inputDataDir "s1")) = some (some ["f.pkl"]) ∧
    (cleanup_session c7St "s1").map
      (fun r => r.2.fs.lookup (outputDataDir "s1")) = some none := by
  obtain ⟨st2, h1, h2, h3, h4, h5, h6, h7⟩ :=
    c7_cleanup_session_effects c7St "s1" c7Row rfl (by decide) (by decide)
      rfl
  rw [h1]
  constructor
  · show some (st2.fs.lookup (inputDataDir "s1")) = some (some ["f.pkl"])
    rw [h6 "s1"]
    decide
  · show some (st2.fs.lookup (outputDataDir "s1")) = some none
    rw [h4]

/-- `JobStatus` of `job_manager.py`. -/
inductive JStatus where
  | pending
  | running
  | completed
  | failed
  | cancelled
deriving Repr, DecidableEq

/-- One row of `JobManager.jobs` (the `job_info` dictionary built by
`create_job`). -/
structure JobRow where
  job_id : String
  session_id : String
  status : JStatus
  query : String
  model : String
  created_at : Int
  started_at : Option Int
  completed_at : Option Int
  error : Option String
  container_port : Option Nat
  output_dir : HPath
  input_dir : HPath
  user_info : Option UInfo
deriving Repr, DecidableEq

/-- The `JobManager` service state: job table plus the directory tree it
manipulates (the coarse job lock is elided — no job-manager operation in
scope nests its acquisition). -/
structure JMState where
  jobs : List (String × JobRow)
  fs : Fs
deriving Repr, DecidableEq

/-- `self.jobs.get(job_id)`. -/
def lookupJob (l : List (String × JobRow)) (jid : String) : Option JobRow :=
  match l.find? (fun e => e.1 == jid) with
  | some e => some e.2
  | none => none

/-- Python dictionary assignment `self.jobs[job_id] = job_info`. -/
def insertJob (l : List (String × JobRow)) (jid : String) (r : JobRow) :
    List (String × JobRow) :=
  if (lookupJob l jid).isSome
  then l.map (fun e => if e.1 == jid then (jid, r) else e)
  else l ++ [(jid, r)]

/-- `JobManager.create_job`: derives the job's `input_dir` as the session's
shared input directory and its `output_dir` as `{session output
root}/{job_id}`, ensures the session directories exist, inserts a `pending`
row, persists.  It validates nothing and never contacts the container.  The
generated `JOB_`-prefixed uuid and the clock are parameters. -/
def jm_create_job (st : JMState) (session_id query model : String)
    (session_info : Option SessionRow) (user_info : Option UInfo)
    (job_id : String) (now : Int) : (String × JobRow) × JMState :=
  let session_input_dir := inputDataDir session_id
  let session_output_dir := outputDataDir session_id
  let fs1 := if session_id ≠ "" then st.fs.mkdirs session_input_dir else st.fs
  let fs2 := fs1.mkdirs session_output_dir
  let job_info : JobRow :=
    { job_id := job_id, session_id := session_id, status := .pending,
      query := query, model := model, created_at := now,
      started_at := none, completed_at := none, error := none,
      container_port := session_info.bind (fun r => r.container_port),
      output_dir := session_output_dir ++ [job_id],
      input_dir := session_input_dir,
      user_info := user_info }
  ((job_id, job_info), { jobs := insertJob st.jobs job_id job_info, fs := fs2 })

/-- `JobManager._cleanup_job`: removes the job's `input_dir`, then its
`output_dir`, then the registry row. -/
def jm_cleanup_job (st : JMState) (jid : String) : JMState :=
  match lookupJob st.jobs jid with
  | none => st
  | some j =>
    let fs1 := if (st.fs.lookup j.input_dir).isSome
               then st.fs.rmtree j.input_dir else st.fs
    let fs2 := if (fs1.lookup j.output_dir).isSome
               then fs1.rmtree j.output_dir else fs1
    { jobs := st.jobs.filter (fun e => !(e.1 == jid)), fs := fs2 }

/-- The loop of `JobManager.cleanup_old_jobs` over the collected ids. -/
def cleanupJobList (st : JMState) : List String → JMState
  | [] => st
  | j :: rest => cleanupJobList (jm_cleanup_job st j) rest

/-- `JobManager.cleanup_old_jobs`: collects every job older than
`max_age_hours` and applies `_cleanup_job` to each. -/
def cleanup_old_jobs (st : JMState) (now : Int) (max_age_hours : Int) :
    JMState :=
  cleanupJobList st ((st.jobs.filter
    (fun e => decide (now - e.2.created_at > max_age_hours * 3600))).map
    (fun e => e.1))

/-- The job-manager state of the C1 scenario: one job created against
session `S`, then one input file uploaded into `S`'s shared input
directory. -/
def c1State : JMState :=
  let created := jm_create_job { jobs := [], fs := ⟨[]⟩ } "S" "q"
    "gpt-4.1-mini" none (some { email := some "a@x.com" }) "JOB_1" 0
  { jobs := created.2.jobs,
    fs := created.2.fs.putFile (inputDataDir "S") "f.pkl" }

/-- C1: a job's `input_dir` is the owning session's shared input directory
(`create_job` aliases them), and `_cleanup_job` calls
`shutil.rmtree(input_dir)`.  Aging out one job therefore deletes the
session's shared input directory together with its files — the claim
requires that directory to survive with its files, so the code contradicts
the retention contract (and the preservation policy that
`cleanup_session` documents for the very same directory). -/
theorem c1_cleanup_old_jobs_deletes_shared_input :
    c1State.fs.lookup (inputDataDir "S") = some ["f.pkl"] ∧
    (lookupJob c1State.jobs "JOB_1").map (fun j => j.input_dir) =
      some (inputDataDir "S") ∧
    lookupJob (cleanup_old_jobs c1State 90000 24).jobs "JOB_1" = none ∧
    (cleanup_old_jobs c1State 90000 24).fs.lookup (inputDataDir "S") =
      none := by
  decide

/-- Replacing the job stored at `jid` makes later lookups return it. -/
theorem lookupJob_setRow (l : List (String × JobRow)) (jid : String)
    (r row : JobRow) (h : lookupJob l jid = some row) :
    lookupJob (l.map (fun e => if e.1 == jid then (jid, r) else e)) jid =
      some r := by
  induction l with
  | nil => simp [lookupJob] at h
  | cons e tl ih =>
    by_cases he : (e.1 == jid) = true
    · simp [lookupJob, List.find?, he]
    · have h' : lookupJob tl jid = some row := by
        simpa [lookupJob, List.find?, he] using h
      have := ih h'
      simpa [lookupJob, List.find?, he] using this

/-- Appending a fresh binding makes lookups return it. -/
theorem lookupJob_append_self (l : List (String × JobRow)) (jid : String)
    (r : JobRow) (h : lookupJob l jid = none) :
    lookupJob (l ++ [(jid, r)]) jid = some r := by
  induction l with
  | nil => simp [lookupJob, List.find?]
  | cons e tl ih =>
    by_cases he : (e.1 == jid) = true
    · simp [lookupJob, List.find?, he] at h
    · have h' : lookupJob tl jid = none := by
        simpa [lookupJob, List.find?, he] using h
      have := ih h'
      simpa [lookupJob, List.find?, he] using this

/-- Dictionary assignment always makes the binding retrievable. -/
theorem lookupJob_insertJob (l : List (String × JobRow)) (jid : String)
    (r : JobRow) : lookupJob (insertJob l jid r) jid = some r := by
  unfold insertJob
  cases hl : lookupJob l jid with
  | some row => simpa [hl] using lookupJob_setRow l jid r row hl
  | none => simpa [hl] using lookupJob_append_self l jid r hl

/-- The outcome of `container.reload()` inside `get_session_container`:
the container is found running (with a bridge IP), found stopped, or the
Docker query raises. -/
inductive Probe where
  | isRunning (ip : String)
  | stopped
  | probeErr
deriving Repr, DecidableEq

/-- `SessionManager.get_session_container`: returns the row only when it is
`active` and its container is confirmed running (lazily filling a missing
`container_ip`); flips the row to `inactive` when the container has
stopped, or to `error` when the probe raises, returning not-found in
either case. -/
def get_session_container (st : SMState) (sid : String) (pr : Probe) :
    Option SessionRow × SMState :=
  match lookupSession st.sessions sid with
  | none => (none, st)
  | some row =>
    if row.status = "active" then
      match pr with
      | .isRunning ip =>
        if row.container_ip = "" then
          let row2 : SessionRow := { row with container_ip := ip }
          (some row2, { st with sessions := setRow st.sessions sid row2 })
        else (some row, st)
      | .stopped =>
        let s2 := setRow st.sessions sid { row with status := "inactive" }
        (none, { st with sessions := s2 })
      | .probeErr =>
        let s2 := setRow st.sessions sid { row with status := "error" }
        (none, { st with sessions := s2 })
    else (none, st)

/-- HTTP outcome of the `/create_job` route. -/
inductive RouteResult where
  | ok (job_id : String)
  | clientErr (code : Nat) (msg : String)
deriving Repr, DecidableEq

/-- The `/create_job` route of `blueprints/sessions.py`: validates the body,
resolves the session's live container through the Session Registry, and
only then calls `JobManager.create_job` followed by
`start_job_execution` (the detached worker itself is `execute_job` below);
on an unresolvable session it answers 400 without touching the job
table. -/
def create_job_route (sm : SMState) (jm : JMState)
    (token_payload : Option UInfo) (query_provided : Bool)
    (session_id : Option String) (query model job_id : String) (pr : Probe)
    (now : Int) : RouteResult × SMState × JMState :=
  if !query_provided then (.clientErr 400 "Missing analysis query", sm, jm)
  else
    match session_id with
    | none => (.clientErr 400 "Missing session ID", sm, jm)
    | some sid =>
      if sid = "" then (.clientErr 400 "Missing session ID", sm, jm)
      else
        match get_session_container sm sid pr with
        | (none, sm2) =>
          (.clientErr 400 ("Invalid or inactive session: " ++ sid), sm2, jm)
        | (some row, sm2) =>
          let res := jm_create_job jm sid query model (some row)
            token_payload job_id now
          (.ok res.1.1, sm2, res.2)

/-- C9: submitting a job against a `session_id` that was never created —
or one the Session Registry cannot produce a live container for, e.g. a
registered session whose container has stopped — answers 400 and leaves
the job table exactly as it was (no job row is inserted), even though
`create_job` itself, called directly, would unconditionally insert a
`pending` row for any `session_id`. -/
theorem c9_unknown_session_rejected (sm : SMState) (jm : JMState)
    (tp : Option UInfo) (q m jid : String) (pr : Probe) (now : Int)
    (sid : String) (hsid : sid ≠ "") :
    (lookupSession sm.sessions sid = none →
      create_job_route sm jm tp true (some sid) q m jid pr now =
        (.clientErr 400 ("Invalid or inactive session: " ++ sid), sm, jm))
      ∧
    (∀ pr2 : Probe, (get_session_container sm sid pr2).1 = none →
      create_job_route sm jm tp true (some sid) q m jid pr2 now =
        (.clientErr 400 ("Invalid or inactive session: " ++ sid),
          (get_session_container sm sid pr2).2, jm)) ∧
    (∀ si : Option SessionRow, ∀ ui : Option UInfo,
      lookupJob (jm_create_job jm sid q m si ui jid now).2.jobs jid =
        some (jm_create_job jm sid q m si ui jid now).1.2 ∧
      (jm_create_job jm sid q m si ui jid now).1.2.status = .pending) := by
  refine ⟨?_, ?_, ?_⟩
  · intro h
    simp [create_job_route, get_session_container, h, hsid]
  · intro pr2 hnone
    cases hpair : get_session_container sm sid pr2 with
    | mk o sm2 =>
      have ho : o = none := by rw [hpair] at hnone; exact hnone
      subst ho
      simp [create_job_route, hsid, hpair]
  · intro si ui
    exact ⟨lookupJob_insertJob jm.jobs jid _, rfl⟩

/-- The empty session registry. -/
def smEmpty : SMState :=
  { sessions := [], lock := false, fs := ⟨[]⟩, containers := [] }

/-- The empty job registry. -/
def jmEmpty : JMState := { jobs := [], fs := ⟨[]⟩ }

/-- An active registered session whose container the `c9` witness probes
as stopped. -/
def c9Row : SessionRow :=
  { container_id := "c9w", container_obj := true, container_ip := "ip",
    container_port := some 5102, created_at := 0, status := "active",
    output_dir := outputDataDir "sA", user_info := none }

/-- A one-session registry for the `c9` witness. -/
def c9St : SMState :=
  { sessions := [("sA", c9Row)], lock := false, fs := ⟨[]⟩,
    containers := ["c9w"] }

/-- Witness for `c9_unknown_session_rejected`: a never-created id is
rejected with both registries unchanged, and a registered session whose
container is found stopped is rejected with the job table unchanged. -/
theorem c9_unknown_session_rejected_witness :
    create_job_route smEmpty jmEmpty none true (some "ghost") "q"
        "gpt-4.1-mini" "JOB_1" (.isRunning "ip") 0 =
      (.clientErr 400 "Invalid or inactive session: ghost", smEmpty,
        jmEmpty) ∧
    create_job_route c9St jmEmpty none true (some "sA") "q" "gpt-4.1-mini"
        "JOB_1" .stopped 0 =
      (.clientErr 400 "Invalid or inactive session: sA",
        (get_session_container c9St "sA" .stopped).2, jmEmpty) ∧
    (lookupJob (jm_create_job jmEmpty "ghost" "q" "gpt-4.1-mini" none none
        "JOB_1" 0).2.jobs "JOB_1").isSome = true := by
  have h1 := c9_unknown_session_rejected smEmpty jmEmpty none "q"
    "gpt-4.1-mini" "JOB_1" (.isRunning "ip") 0 "ghost" (by decide)
  have h2 := c9_unknown_session_rejected c9St jmEmpty none "q"
    "gpt-4.1-mini" "JOB_1" (.isRunning "ip") 0 "sA" (by decide)
  refine ⟨h1.1 (by decide), h2.2.1 .stopped (by decide), ?_⟩
  rw [(h1.2.2 none none).1]
  rfl

/-- `putFile` rewrites exactly the content stored at `p`. -/
theorem Fs.lookup_putFile_self (fs : Fs) (p : HPath) (f : String) :
    (fs.putFile p f).lookup p =
      (fs.lookup p).map (fun cur => if f ∈ cur then cur else cur ++ [f]) := by
  simp only [Fs.lookup, Fs.putFile]
  induction fs.dirs with
  | nil => rfl
  | cons e tl ih =>
    by_cases he : e.1 = p
    · simp [lookupDirs, he]
    · simpa [lookupDirs, he] using ih

/-- `putFile` leaves every other directory alone. -/
theorem Fs.lookup_putFile_other (fs : Fs) (p q : HPath) (f : String)
    (h : q ≠ p) : (fs.putFile p f).lookup q = fs.lookup q := by
  simp only [Fs.lookup, Fs.putFile]
  induction fs.dirs with
  | nil => rfl
  | cons e tl ih =>
    by_cases he : e.1 = p
    · have hq2 : ¬ p = q := fun hh => h hh.symm
      simpa [lookupDirs, he, hq2] using ih
    · by_cases hq : e.1 = q
      · simp [lookupDirs, he, hq, h]
      · simpa [lookupDirs, he, hq] using ih

/-- Lookup distributes over list append. -/
theorem lookupDirs_append (l1 l2 : List (HPath × List String)) (p : HPath) :
    lookupDirs (l1 ++ l2) p =
      match lookupDirs l1 p with
      | some v => some v
      | none => lookupDirs l2 p := by
  induction l1 with
  | nil => rfl
  | cons e tl ih =>
    by_cases he : e.1 = p
    · simp [lookupDirs, he]
    · simpa [lookupDirs, he] using ih

/-- `mkdirs` on a missing directory creates it empty. -/
theorem Fs.lookup_mkdirs_self (fs : Fs) (p : HPath) :
    (fs.mkdirs p).lookup p = some ((fs.lookup p).getD []) := by
  unfold Fs.mkdirs
  cases hl : fs.lookup p with
  | some v => simp [hl]
  | none =>
    simp only [hl, Option.isSome_none, Bool.false_eq_true, if_false,
      Option.getD_none]
    simp only [Fs.lookup] at hl ⊢
    rw [lookupDirs_append, hl]
    simp [lookupDirs]

/-- `mkdirs` leaves every other directory alone. -/
theorem Fs.lookup_mkdirs_other (fs : Fs) (p q : HPath) (h : q ≠ p) :
    (fs.mkdirs p).lookup q = fs.lookup q := by
  unfold Fs.mkdirs
  by_cases hex : (fs.lookup p).isSome = true
  · rw [if_pos hex]
  · rw [if_neg hex]
    simp only [Fs.lookup]
    rw [lookupDirs_append]
    cases hf : lookupDirs fs.dirs q with
    | some v => rfl
    | none =>
      have hpq : ¬ p = q := fun hh => h hh.symm
      simp [lookupDirs, hpq]

/-- `rmtree` never makes a missing directory appear. -/
theorem Fs.lookup_rmtree_none (fs : Fs) (p q : HPath)
    (h : fs.lookup q = none) : (fs.rmtree p).lookup q = none := by
  have aux : ∀ l : List (HPath × List String), lookupDirs l q = none →
      lookupDirs (l.filter (fun e => !(p.isPrefixOf e.1))) q = none := by
    intro l
    induction l with
    | nil => intro _; rfl
    | cons e tl ih =>
      intro hcons
      by_cases he : e.1 = q
      · simp [lookupDirs, he] at hcons
      · have h2 : lookupDirs tl q = none := by
          simpa [lookupDirs, he] using hcons
        cases hpe : p.isPrefixOf e.1 with
        | true => simpa [List.filter_cons, hpe] using ih h2
        | false => simpa [List.filter_cons, hpe, lookupDirs, he] using ih h2
  simp only [Fs.lookup, Fs.rmtree]
  exact aux fs.dirs (by simpa [Fs.lookup] using h)

/-- Recognise `input_data/{sid}` paths: the session directories that
`os.listdir(input_data_base)` enumerates. -/
def childOfInput : HPath → Option String
  | [a, b, c, d] => if [a, b, c] = input_data_base then some d else none
  | _ => none

/-- The session directories currently present under `input_data`. -/
def inputChildDirs (fs : Fs) : List String :=
  fs.dirs.filterMap (fun e => childOfInput e.1)

/-- The filter loop of `_get_most_recent_session_with_files`: keep a listed
directory when it contains at least one file, a session row is known for
it, and the row's stored owner email equals the lower-cased current email
case-insensitively; record its `created_at`. -/
def candidateSessions (fs : Fs) (sessions : List (String × SessionRow))
    (cur : String) : List (String × Int) :=
  (inputChildDirs fs).filterMap (fun d =>
    if fs.filesIn (inputDataDir d) = [] then none
    else
      match lookupSession sessions d with
      | none => none
      | some row =>
        if strLower (uinfoEmail row.user_info) = cur
        then some (d, row.created_at) else none)

/-- `sort(key=created_at, reverse=True)` followed by taking the head:
the first candidate with maximal `created_at` (Python's sort is stable). -/
def pickMostRecent : List (String × Int) → Option String
  | [] => none
  | c :: rest =>
    some ((rest.foldl (fun best x => if x.2 > best.2 then x else best) c).1)

/-- `SessionManager._get_most_recent_session_with_files`: no migration at
all without a non-empty owner email; otherwise the most recent candidate
directory. -/
def get_most_recent_session_with_files (fs : Fs)
    (sessions : List (String × SessionRow)) (uinfo : Option UInfo) :
    Option String :=
  if uinfoEmail uinfo = "" then none
  else pickMostRecent
    (candidateSessions fs sessions (strLower (uinfoEmail uinfo)))

/-- `SessionManager._copy_session_input_files`: nothing when the source
directory is missing; otherwise create the target directory and copy every
file across. -/
def copy_session_input_files (fs : Fs) (src tgt : String) : Fs :=
  match fs.lookup (inputDataDir src) with
  | none => fs
  | some files =>
    let fs1 := fs.mkdirs (inputDataDir tgt)
    files.foldl (fun acc f => acc.putFile (inputDataDir tgt) f) fs1

/-- `SessionManager._cleanup_previous_session`: skipped entirely when the
session is still `active` with a live container object; otherwise the row
is removed from the registry (memory and snapshot alike) and the session's
input directory and output directory are deleted. -/
def cleanup_previous_session (sessions : List (String × SessionRow))
    (fs : Fs) (sid : String) : List (String × SessionRow) × Fs :=
  match lookupSession sessions sid with
  | some row =>
    if row.status = "active" ∧ row.container_obj = true then (sessions, fs)
    else
      let sessions1 := sessions.filter (fun e => !(e.1 == sid))
      let fs1 := if (fs.lookup (inputDataDir sid)).isSome
                 then fs.rmtree (inputDataDir sid) else fs
      let fs2 := if (fs1.lookup row.output_dir).isSome
                 then fs1.rmtree row.output_dir else fs1
      (sessions1, fs2)
  | none =>
    let fs1 := if (fs.lookup (inputDataDir sid)).isSome
               then fs.rmtree (inputDataDir sid) else fs
    (sessions, fs1)

/-- The migration step of `create_session` (its lines between port
allocation and the container launch): look the donor up, copy its input
files into the new session, then clean the donor up completely. -/
def session_migration (sessions : List (String × SessionRow)) (fs : Fs)
    (uinfo : Option UInfo) (new_sid : String) :
    List (String × SessionRow) × Fs :=
  match get_most_recent_session_with_files fs sessions uinfo with
  | none => (sessions, fs)
  | some d =>
    let fs1 := copy_session_input_files fs d new_sid
    cleanup_previous_session sessions fs1 d

/-- `SessionManager._find_free_port`: scan 5100–5999 in order, skipping
every port already recorded against a tracked session, and probe OS-level
availability (`os_free` models the bind/release probe). -/
def find_free_port (sessions : List (String × SessionRow))
    (os_free : Nat → Bool) : Option Nat :=
  (List.range' 5100 900).find? (fun p =>
    !(sessions.any (fun e => e.2.container_port == some p)) && os_free p)

/-- Environment of one `create_session` call: the clock, the id/IP Docker
assigns, whether the container ends up running (after the one retried
`start`), and the OS port probe. -/
structure CreateParams where
  now : Int
  container_id : String
  container_ip : String
  container_runs : Bool
  os_free : Nat → Bool

/-- `SessionManager.create_session`: under the registry lock, allocate a
port, ensure the session output directory, run the donor migration, launch
the container (its id is recorded even when it fails to reach `running`:
the object was created), and on success record the `active` row and
persist.  A runtime failure propagates to the caller (`none` result) after
the side effects already performed. -/
def create_session (st : SMState) (session_id : String)
    (user_info : Option UInfo) (p : CreateParams) :
    Option (String × String) × SMState :=
  if st.lock then (none, st)
  else
    match find_free_port st.sessions p.os_free with
    | none => (none, st)
    | some port =>
      if p.container_runs then
        (some (session_id, p.container_id),
         { sessions := insertSessionRow
             (session_migration st.sessions
               (st.fs.mkdirs (outputDataDir session_id)) user_info
               session_id).1 session_id
             { container_id := p.container_id, container_obj := true,
               container_ip := p.container_ip, container_port := some port,
               created_at := p.now, status := "active",
               output_dir := outputDataDir session_id,
               user_info := user_info },
           lock := false,
           fs := (session_migration st.sessions
             (st.fs.mkdirs (outputDataDir session_id)) user_info
             session_id).2,
           containers := st.containers ++ [p.container_id] })
      else
        (none,
         { sessions := (session_migration st.sessions
             (st.fs.mkdirs (outputDataDir session_id)) user_info
             session_id).1,
           lock := false,
           fs := (session_migration st.sessions
             (st.fs.mkdirs (outputDataDir session_id)) user_info
             session_id).2,
           containers := st.containers ++ [p.container_id] })

/-- The donor row of the C8 scenario: still `active`, with a live container
object attached. -/
def c8ActiveRow : SessionRow :=
  { container_id := "cA", container_obj := true, container_ip := "",
    container_port := some 5100, created_at := 10, status := "active",
    output_dir := outputDataDir "S1", user_info :=
      some { email := some "A@x.com" } }

/-- Registry and disk of the C8 scenario. -/
def c8Sessions : List (String × SessionRow) := [("S1", c8ActiveRow)]

/-- The directory tree of the C8 scenario: the donor's input directory
holds one file. -/
def c8Fs : Fs := ⟨[(inputDataDir "S1", ["f.pkl"]), (outputDataDir "S1", [])]⟩

/-- C8 counterexample: when the selected donor session is still `active`
with a live container object, `_cleanup_previous_session` returns without
deleting anything, so after the copy the donor's registry row and its
input directory both survive — the claim that "after a successful copy the
donor session is deleted entirely" is false on the code. -/
theorem c8_active_donor_not_deleted :
    get_most_recent_session_with_files c8Fs c8Sessions
      (some { email := some "a@X.com" }) = some "S1" ∧
    (session_migration c8Sessions c8Fs (some { email := some "a@X.com" })
      "S2").2.filesIn (inputDataDir "S2") = ["f.pkl"] ∧
    lookupSession (session_migration c8Sessions c8Fs
      (some { email := some "a@X.com" }) "S2").1 "S1" = some c8ActiveRow ∧
    (session_migration c8Sessions c8Fs (some { email := some "a@X.com" })
      "S2").2.lookup (inputDataDir "S1") = some ["f.pkl"] := by
  decide

/-- ASCII lowering maps only the empty string to the empty string. -/
theorem strLower_eq_empty_iff (s : String) : strLower s = "" ↔ s = "" := by
  cases s with
  | mk data =>
    simp [strLower, String.ext_iff]

/-- Session ids are recoverable from their input directories. -/
theorem inputDataDir_inj (a b : String) (h : inputDataDir a = inputDataDir b) :
    a = b := by
  simpa [inputDataDir, input_data_base] using h

/-- One input directory is a prefix of another only when they are the same
directory (they have equal length). -/
theorem inputDir_prefix_iff (a b : String) :
    (inputDataDir a <+: inputDataDir b) ↔ a = b := by
  constructor
  · intro h
    have hlen : (inputDataDir a).length = (inputDataDir b).length := by
      simp [inputDataDir, input_data_base]
    exact inputDataDir_inj a b (h.sublist.eq_of_length hlen)
  · intro h
    rw [h]

/-- A directory with at least one file exists. -/
theorem filesIn_ne_nil_isSome (fs : Fs) (p : HPath)
    (h : fs.filesIn p ≠ []) : (fs.lookup p).isSome = true := by
  unfold Fs.filesIn at h
  cases hl : fs.lookup p with
  | none => rw [hl] at h; simp at h
  | some v => rfl

/-- The running best of the stable `reverse=True` sort prefix is a member
of the input and bounds every element's `created_at`. -/
theorem foldPick_spec (c : String × Int) (rest : List (String × Int)) :
    (rest.foldl (fun best x => if x.2 > best.2 then x else best) c) ∈
      c :: rest ∧
    c.2 ≤ (rest.foldl (fun best x => if x.2 > best.2 then x else best) c).2 ∧
    ∀ x ∈ rest,
      x.2 ≤ (rest.foldl (fun best x => if x.2 > best.2 then x else best) c).2
    := by
  induction rest generalizing c with
  | nil => exact ⟨List.mem_cons_self c [], le_refl _, by simp⟩
  | cons y ys ih =>
    obtain ⟨hmem, hle, hall⟩ := ih (if y.2 > c.2 then y else c)
    simp only [List.foldl_cons]
    refine ⟨?_, ?_, ?_⟩
    · rcases List.mem_cons.mp hmem with h1 | h1
      · by_cases hy : y.2 > c.2
        · rw [if_pos hy] at h1 ⊢
          rw [h1]
          exact List.mem_cons_of_mem _ (List.mem_cons_self _ _)
        · rw [if_neg hy] at h1 ⊢
          rw [h1]
          exact List.mem_cons_self _ _
      · exact List.mem_cons_of_mem _ (List.mem_cons_of_mem _ h1)
    · have h2 : c.2 ≤ (if y.2 > c.2 then y else c).2 := by
        by_cases hy : y.2 > c.2
        · rw [if_pos hy]; exact le_of_lt hy
        · rw [if_neg hy]
      exact le_trans h2 hle
    · intro x hx
      rcases List.mem_cons.mp hx with h1 | h1
      · have h2 : x.2 ≤ (if y.2 > c.2 then y else c).2 := by
          rw [h1]
          by_cases hy : y.2 > c.2
          · rw [if_pos hy]
          · rw [if_neg hy]; exact le_of_not_lt hy
        exact le_trans h2 hle
      · exact hall x h1

/-- The selected donor is a candidate of maximal `created_at`. -/
theorem pickMostRecent_spec (l : List (String × Int)) (d : String)
    (h : pickMostRecent l = some d) :
    ∃ t : Int, (d, t) ∈ l ∧ ∀ x ∈ l, x.2 ≤ t := by
  cases l with
  | nil => simp [pickMostRecent] at h
  | cons c rest =>
    obtain ⟨hmem, hle, hall⟩ := foldPick_spec c rest
    have hd : (rest.foldl (fun best x => if x.2 > best.2 then x else best)
        c).1 = d := by
      simpa [pickMostRecent] using h
    refine ⟨(rest.foldl (fun best x => if x.2 > best.2 then x else best)
      c).2, ?_, ?_⟩
    · have h2 := hmem
      rw [← hd]
      simpa using h2
    · intro x hx
      rcases List.mem_cons.mp hx with h1 | h1
      · rw [h1]; exact hle
      · exact hall x h1

/-- What membership in the donor-candidate list means. -/
theorem mem_candidateSessions (fs : Fs)
    (sessions : List (String × SessionRow)) (cur : String) (d : String)
    (t : Int) (h : (d, t) ∈ candidateSessions fs sessions cur) :
    fs.filesIn (inputDataDir d) ≠ [] ∧
    ∃ row : SessionRow, lookupSession sessions d = some row ∧
      strLower (uinfoEmail row.user_info) = cur ∧ t = row.created_at := by
  unfold candidateSessions at h
  rw [List.mem_filterMap] at h
  obtain ⟨a, _hmem, ha⟩ := h
  by_cases hfe : fs.filesIn (inputDataDir a) = []
  · rw [if_pos hfe] at ha
    exact absurd ha (by simp)
  · rw [if_neg hfe] at ha
    cases hrow : lookupSession sessions a with
    | none => rw [hrow] at ha; simp at ha
    | some row =>
      rw [hrow] at ha
      dsimp only at ha
      by_cases hem : strLower (uinfoEmail row.user_info) = cur
      · rw [if_pos hem] at ha
        have hpair := Option.some.inj ha
        have ha1 : a = d := congrArg Prod.fst hpair
        have ha2 : row.created_at = t := congrArg Prod.snd hpair
        subst ha1
        exact ⟨hfe, row, hrow, hem, ha2.symm⟩
      · rw [if_neg hem] at ha
        simp at ha

/-- Folding `putFile` keeps the target directory present. -/
theorem foldl_putFile_isSome (l : List String) (fs : Fs) (tgt : HPath)
    (h : (fs.lookup tgt).isSome = true) :
    ((l.foldl (fun acc g => acc.putFile tgt g) fs).lookup tgt).isSome =
      true := by
  induction l generalizing fs with
  | nil => exact h
  | cons g gs ih =>
    simp only [List.foldl_cons]
    apply ih
    rw [Fs.lookup_putFile_self]
    cases hl : fs.lookup tgt with
    | none => rw [hl] at h; simp at h
    | some v => simp

/-- Every copied file, and every file already present, is in the target
directory after the copy loop. -/
theorem mem_foldl_putFile (l : List String) (fs : Fs) (tgt : HPath)
    (h : (fs.lookup tgt).isSome = true) (g : String)
    (hg : g ∈ l ∨ g ∈ fs.filesIn tgt) :
    g ∈ (l.foldl (fun acc f => acc.putFile tgt f) fs).filesIn tgt := by
  induction l generalizing fs with
  | nil =>
    rcases hg with h1 | h1
    · simp at h1
    · exact h1
  | cons f fl ih =>
    simp only [List.foldl_cons]
    obtain ⟨v, hv⟩ := Option.isSome_iff_exists.mp h
    have hstep : (fs.putFile tgt f).lookup tgt =
        some (if f ∈ v then v else v ++ [f]) := by
      rw [Fs.lookup_putFile_self, hv]
      rfl
    apply ih
    · rw [hstep]; rfl
    · rcases hg with h1 | h1
      · rcases List.mem_cons.mp h1 with h2 | h2
        · right
          rw [Fs.filesIn, hstep, Option.getD_some, h2]
          by_cases hin : f ∈ v
          · rw [if_pos hin]; exact hin
          · rw [if_neg hin]; exact List.mem_append_right v (by simp)
        · left; exact h2
      · right
        rw [Fs.filesIn, hv, Option.getD_some] at h1
        rw [Fs.filesIn, hstep, Option.getD_some]
        by_cases hin : f ∈ v
        · rw [if_pos hin]; exact h1
        · rw [if_neg hin]; exact List.mem_append_left _ h1

/-- All files of a non-empty donor input directory end up in the new
session's input directory. -/
theorem mem_copy_session_input_files (fs : Fs) (src tgt : String)
    (hfiles : fs.filesIn (inputDataDir src) ≠ []) (g : String)
    (hg : g ∈ fs.filesIn (inputDataDir src)) :
    g ∈ (copy_session_input_files fs src tgt).filesIn (inputDataDir tgt)
    := by
  unfold copy_session_input_files
  have hsome := filesIn_ne_nil_isSome fs _ hfiles
  obtain ⟨v, hv⟩ := Option.isSome_iff_exists.mp hsome
  rw [hv]
  have hgv : g ∈ v := by rw [Fs.filesIn, hv, Option.getD_some] at hg; exact hg
  apply mem_foldl_putFile
  · rw [Fs.lookup_mkdirs_self]; rfl
  · left; exact hgv

/-- The copy loop touches only the new session's input directory. -/
theorem copy_files_lookup_other (fs : Fs) (src tgt : String) (q : HPath)
    (hq : q ≠ inputDataDir tgt) :
    (copy_session_input_files fs src tgt).lookup q = fs.lookup q := by
  unfold copy_session_input_files
  cases hv : fs.lookup (inputDataDir src) with
  | none => rfl
  | some v =>
    have hfold : ∀ (l : List String) (acc : Fs),
        acc.lookup q = fs.lookup q →
        (l.foldl (fun a f => a.putFile (inputDataDir tgt) f) acc).lookup q =
          fs.lookup q := by
      intro l
      induction l with
      | nil => intro acc h; exact h
      | cons f fl ih =>
        intro acc h
        simp only [List.foldl_cons]
        apply ih
        rw [Fs.lookup_putFile_other _ _ _ _ hq]
        exact h
    exact hfold v _ (Fs.lookup_mkdirs_other fs _ q hq)

/-- Deleting a key from the registry makes its lookup fail. -/
theorem lookupSession_filter_ne (l : List (String × SessionRow))
    (sid : String) :
    lookupSession (l.filter (fun e => !(e.1 == sid))) sid = none := by
  have hf : (l.filter (fun e => !(e.1 == sid))).find?
      (fun e => e.1 == sid) = none := by
    rw [List.find?_eq_none]
    intro x hx
    have h2 := (List.mem_filter.mp hx).2
    simp only [Bool.not_eq_true'] at h2
    simp [h2]
  simp [lookupSession, hf]

/-- `_cleanup_previous_session` touches no directory outside the donor's
input directory and its recorded output directory. -/
theorem cleanup_previous_frame (sessions : List (String × SessionRow))
    (fs : Fs) (sid : String) (q : HPath)
    (h1 : ¬ inputDataDir sid <+: q)
    (h2 : ∀ row : SessionRow, lookupSession sessions sid = some row →
      ¬ row.output_dir <+: q) :
    (cleanup_previous_session sessions fs sid).2.lookup q = fs.lookup q := by
  unfold cleanup_previous_session
  cases hrow : lookupSession sessions sid with
  | none =>
    dsimp only
    by_cases hc : (fs.lookup (inputDataDir sid)).isSome = true
    · rw [if_pos hc]
      exact Fs.lookup_rmtree_of_not_prefix _ _ _ h1
    · rw [if_neg hc]
  | some row =>
    dsimp only
    by_cases hact : row.status = "active" ∧ row.container_obj = true
    · rw [if_pos hact]
    · rw [if_neg hact]
      dsimp only
      have e1 : (if (fs.lookup (inputDataDir sid)).isSome
          then fs.rmtree (inputDataDir sid) else fs).lookup q =
          fs.lookup q := by
        by_cases hc : (fs.lookup (inputDataDir sid)).isSome = true
        · rw [if_pos hc]
          exact Fs.lookup_rmtree_of_not_prefix _ _ _ h1
        · rw [if_neg hc]
      by_cases hc2 : ((if (fs.lookup (inputDataDir sid)).isSome
          then fs.rmtree (inputDataDir sid) else fs).lookup
            row.output_dir).isSome = true
      · rw [if_pos hc2]
        rw [Fs.lookup_rmtree_of_not_prefix _ _ _ (h2 row hrow)]
        exact e1
      · rw [if_neg hc2]
        exact e1

/-- A non-active donor is deleted: registry row gone, input directory
gone, recorded output directory gone. -/
theorem cleanup_previous_deletes (sessions : List (String × SessionRow))
    (fs : Fs) (sid : String) (row : SessionRow)
    (hrow : lookupSession sessions sid = some row)
    (hnact : ¬ (row.status = "active" ∧ row.container_obj = true))
    (hsome : (fs.lookup (inputDataDir sid)).isSome = true) :
    lookupSession (cleanup_previous_session sessions fs sid).1 sid = none ∧
    (cleanup_previous_session sessions fs sid).2.lookup
      (inputDataDir sid) = none ∧
    (cleanup_previous_session sessions fs sid).2.lookup
      row.output_dir = none := by
  unfold cleanup_previous_session
  rw [hrow]
  dsimp only
  rw [if_neg hnact]
  dsimp only
  refine ⟨lookupSession_filter_ne sessions sid, ?_, ?_⟩
  · rw [if_pos hsome]
    have h0 : (fs.rmtree (inputDataDir sid)).lookup (inputDataDir sid) =
        none := Fs.lookup_rmtree_self _ _
    by_cases hc : ((fs.rmtree (inputDataDir sid)).lookup
        row.output_dir).isSome = true
    · rw [if_pos hc]
      exact Fs.lookup_rmtree_none _ _ _ h0
    · rw [if_neg hc]
      exact h0
  · rw [if_pos hsome]
    by_cases hc : ((fs.rmtree (inputDataDir sid)).lookup
        row.output_dir).isSome = true
    · rw [if_pos hc]
      exact Fs.lookup_rmtree_self _ _
    · rw [if_neg hc]
      exact Option.not_isSome_iff_eq_none.mp hc

/-- A still-active donor with a live container object is skipped: nothing
is deleted. -/
theorem cleanup_previous_skip (sessions : List (String × SessionRow))
    (fs : Fs) (sid : String) (row : SessionRow)
    (hrow : lookupSession sessions sid = some row)
    (hact : row.status = "active" ∧ row.container_obj = true) :
    cleanup_previous_session sessions fs sid = (sessions, fs) := by
  unfold cleanup_previous_session
  rw [hrow]
  dsimp only
  rw [if_pos hact]

/-- C8 (amended): during `CreateSession` for an owner with a non-empty
identity, input files are migrated only from the most recent other session
whose stored owner email matches the new owner's case-insensitively (a
session with no stored owner is never a donor) and which has at least one
input file; all its files are copied into the new session; when the owner
identity is absent no migration occurs.  Amendment forced by the
counterexample: after a successful copy the donor is deleted entirely
(registry row plus input directory) only when it is not still `active`
with a live container object — an active donor is left fully in place. -/
theorem c8_migration_policy (sessions : List (String × SessionRow))
    (fs : Fs) (uinfo : Option UInfo) (new_sid : String) :
    (uinfoEmail uinfo = "" →
      session_migration sessions fs uinfo new_sid = (sessions, fs)) ∧
    (∀ d : String, ∀ row : SessionRow,
      get_most_recent_session_with_files fs sessions uinfo = some d →
      lookupSession sessions d = some row →
      row.output_dir = outputDataDir d →
      fs.lookup (inputDataDir new_sid) = none →
      (fs.filesIn (inputDataDir d) ≠ [] ∧
       uinfoEmail uinfo ≠ "" ∧
       lowerEq (uinfoEmail row.user_info) (uinfoEmail uinfo) = true ∧
       uinfoEmail row.user_info ≠ "" ∧
       (∀ d' : String, ∀ t' : Int,
         (d', t') ∈ candidateSessions fs sessions
           (strLower (uinfoEmail uinfo)) → t' ≤ row.created_at) ∧
       (∀ f ∈ fs.filesIn (inputDataDir d),
         f ∈ (session_migration sessions fs uinfo new_sid).2.filesIn
               (inputDataDir new_sid)) ∧
       (¬ (row.status = "active" ∧ row.container_obj = true) →
         lookupSession (session_migration sessions fs uinfo new_sid).1 d =
           none ∧
         (session_migration sessions fs uinfo new_sid).2.lookup
           (inputDataDir d) = none ∧
         (session_migration sessions fs uinfo new_sid).2.lookup
           (outputDataDir d) = none) ∧
       ((row.status = "active" ∧ row.container_obj = true) →
         (session_migration sessions fs uinfo new_sid).1 = sessions ∧
         (session_migration sessions fs uinfo new_sid).2.lookup
           (inputDataDir d) = fs.lookup (inputDataDir d)))) := by
  constructor
  · intro h
    simp [session_migration, get_most_recent_session_with_files, h]
  · intro d row hd hrow hout hnew
    have hne : uinfoEmail uinfo ≠ "" := by
      intro h0
      rw [get_most_recent_session_with_files, if_pos h0] at hd
      exact Option.noConfusion hd
    have hpick : pickMostRecent (candidateSessions fs sessions
        (strLower (uinfoEmail uinfo))) = some d := by
      rw [get_most_recent_session_with_files, if_neg hne] at hd
      exact hd
    obtain ⟨t, htmem, hmax⟩ := pickMostRecent_spec _ d hpick
    obtain ⟨hfiles, row', hrow', hemail, ht⟩ :=
      mem_candidateSessions fs sessions _ d t htmem
    have hrr : row' = row := by
      rw [hrow'] at hrow
      exact Option.some.inj hrow
    subst hrr
    have hd_ne_new : d ≠ new_sid := by
      intro h0
      have hs := filesIn_ne_nil_isSome fs _ hfiles
      rw [h0, hnew] at hs
      exact Bool.noConfusion hs
    have hdir_ne : inputDataDir d ≠ inputDataDir new_sid := by
      intro h0
      exact hd_ne_new (inputDataDir_inj _ _ h0)
    have hnotpref_in : ¬ inputDataDir d <+: inputDataDir new_sid := by
      intro h0
      exact hd_ne_new ((inputDir_prefix_iff d new_sid).mp h0)
    have hnotpref_out : ¬ row'.output_dir <+: inputDataDir new_sid := by
      rw [hout]
      exact outputDir_not_prefix_inputDir d new_sid
    have hmig : session_migration sessions fs uinfo new_sid =
        cleanup_previous_session sessions
          (copy_session_input_files fs d new_sid) d := by
      unfold session_migration
      rw [hd]
    have hcopy_src : (copy_session_input_files fs d new_sid).lookup
        (inputDataDir d) = fs.lookup (inputDataDir d) :=
      copy_files_lookup_other fs d new_sid _ hdir_ne
    refine ⟨hfiles, hne, ?_, ?_, ?_, ?_, ?_, ?_⟩
    · simp [lowerEq, hemail]
    · intro h0
      rw [h0] at hemail
      have h1 : strLower "" = "" := rfl
      rw [h1] at hemail
      exact hne ((strLower_eq_empty_iff _).mp hemail.symm)
    · intro d' t' hmem'
      have h2 := hmax (d', t') hmem'
      rw [ht] at h2
      exact h2
    · intro f hf
      have hframe := cleanup_previous_frame sessions
        (copy_session_input_files fs d new_sid) d (inputDataDir new_sid)
        hnotpref_in
        (by
          intro r hr
          rw [hrow'] at hr
          rw [← Option.some.inj hr]
          exact hnotpref_out)
      have hfeq : (cleanup_previous_session sessions
          (copy_session_input_files fs d new_sid) d).2.filesIn
            (inputDataDir new_sid) =
          (copy_session_input_files fs d new_sid).filesIn
            (inputDataDir new_sid) := by
        simp only [Fs.filesIn, hframe]
      rw [hmig, hfeq]
      exact mem_copy_session_input_files fs d new_sid hfiles f hf
    · intro hnact
      rw [hmig]
      have hdel := cleanup_previous_deletes sessions
        (copy_session_input_files fs d new_sid) d row' hrow' hnact
        (by rw [hcopy_src]; exact filesIn_ne_nil_isSome fs _ hfiles)
      refine ⟨hdel.1, hdel.2.1, ?_⟩
      have h3 := hdel.2.2
      rw [hout] at h3
      exact h3
    · intro hact
      rw [hmig, cleanup_previous_skip sessions
        (copy_session_input_files fs d new_sid) d row' hrow' hact]
      exact ⟨rfl, hcopy_src⟩

/-- The donor row of the C8 witness scenario: already `cleaned`, no live
container object. -/
def c8wRow : SessionRow :=
  { container_id := "cB", container_obj := false, container_ip := "",
    container_port := some 5101, created_at := 5, status := "cleaned",
    output_dir := outputDataDir "S1", user_info :=
      some { email := some "a@x.com" } }

/-- Registry of the C8 witness scenario. -/
def c8wSessions : List (String × SessionRow) := [("S1", c8wRow)]

/-- Directory tree of the C8 witness scenario: the cleaned donor still has
its input file and a stale output directory. -/
def c8wFs : Fs :=
  ⟨[(inputDataDir "S1", ["f.pkl"]), (outputDataDir "S1", ["old.html"])]⟩

/-- Witness for `c8_migration_policy`: the cleaned donor's file is copied
into the new session, the donor row and both its directories are deleted,
and with no owner identity nothing is migrated. -/
theorem c8_migration_policy_witness :
    "f.pkl" ∈ (session_migration c8wSessions c8wFs
      (some { email := some "A@X.com" }) "S2").2.filesIn
        (inputDataDir "S2") ∧
    lookupSession (session_migration c8wSessions c8wFs
      (some { email := some "A@X.com" }) "S2").1 "S1" = none ∧
    (session_migration c8wSessions c8wFs
      (some { email := some "A@X.com" }) "S2").2.lookup
        (inputDataDir "S1") = none ∧
    (session_migration c8wSessions c8wFs
      (some { email := some "A@X.com" }) "S2").2.lookup
        (outputDataDir "S1") = none ∧
    session_migration c8wSessions c8wFs none "S2" = (c8wSessions, c8wFs)
    := by
  have h := c8_migration_policy c8wSessions c8wFs
    (some { email := some "A@X.com" }) "S2"
  obtain ⟨hf1, hne, hlow, hnemp, hmax, hcopy, hdel, hactv⟩ :=
    h.2 "S1" c8wRow (by decide) (by decide) (by decide) (by decide)
  exact ⟨hcopy "f.pkl" (by decide), (hdel (by decide)).1,
    (hdel (by decide)).2.1, (hdel (by decide)).2.2,
    (c8_migration_policy c8wSessions c8wFs none "S2").1 rfl⟩

/-- The registry invariant: distinct rows have distinct keys and distinct
recorded `container_port`s. -/
def SessInv (l : List (String × SessionRow)) : Prop :=
  l.Pairwise (fun a b => a.1 ≠ b.1 ∧
    a.2.container_port ≠ b.2.container_port)

/-- An allocated port is recorded against no tracked session — this is the
skip step of `_find_free_port`. -/
theorem find_free_port_fresh (sessions : List (String × SessionRow))
    (os_free : Nat → Bool) (port : Nat)
    (h : find_free_port sessions os_free = some port) :
    ∀ e ∈ sessions, e.2.container_port ≠ some port := by
  intro e he hc
  have hp := List.find?_some h
  rw [Bool.and_eq_true] at hp
  have h1 := hp.1
  rw [Bool.not_eq_true'] at h1
  have h2 := List.any_eq_false.mp h1 e he
  apply h2
  rw [hc]
  exact beq_self_eq_true _

/-- A failed registry lookup means no row carries the key. -/
theorem lookupSession_none_keys (l : List (String × SessionRow))
    (sid : String) (h : lookupSession l sid = none) :
    ∀ e ∈ l, e.1 ≠ sid := by
  intro e he hc
  have hf : l.find? (fun e => e.1 == sid) = none := by
    unfold lookupSession at h
    cases hf2 : l.find? (fun e => e.1 == sid) with
    | some x => rw [hf2] at h; simp at h
    | none => rfl
  have := List.find?_eq_none.mp hf e he
  apply this
  rw [hc]
  exact beq_self_eq_true _

/-- Under the invariant, the looked-up row is the only row with its key. -/
theorem lookupSession_unique (l : List (String × SessionRow))
    (hinv : SessInv l) (sid : String) (row : SessionRow)
    (hrow : lookupSession l sid = some row) :
    ∀ e ∈ l, e.1 = sid → e = (sid, row) := by
  induction l with
  | nil => intro e he; simp at he
  | cons e0 tl ih =>
    have hinv' := List.pairwise_cons.mp hinv
    intro e he hkey
    by_cases h0 : (e0.1 == sid) = true
    · have h0' : e0.1 = sid := by simpa using h0
      have hfind : List.find? (fun e => e.1 == sid) (e0 :: tl) = some e0 :=
        List.find?_cons_of_pos tl h0
      have hrow0 : e0.2 = row := by
        unfold lookupSession at hrow
        rw [hfind] at hrow
        exact Option.some.inj hrow
      rcases List.mem_cons.mp he with h1 | h1
      · rw [h1, ← h0', ← hrow0]
      · exact absurd (h0'.trans hkey.symm) (hinv'.1 e h1).1
    · have hfind : List.find? (fun e => e.1 == sid) (e0 :: tl) =
          List.find? (fun e => e.1 == sid) tl :=
        List.find?_cons_of_neg tl h0
      have hrow' : lookupSession tl sid = some row := by
        unfold lookupSession at hrow ⊢
        rw [hfind] at hrow
        exact hrow
      rcases List.mem_cons.mp he with h1 | h1
      · rw [h1] at hkey
        exact absurd (by simpa using hkey) h0
      · exact ih hinv'.2 hrow' e h1 hkey

/-- Replacing a row in place preserves the invariant when the replacement's
port cannot collide with any differently-keyed row. -/
theorem SessInv_setRow_of (l : List (String × SessionRow)) (sid : String)
    (r : SessionRow) (hinv : SessInv l)
    (h : ∀ a ∈ l, a.1 = sid → ∀ b ∈ l, a.1 ≠ b.1 →
      r.container_port ≠ b.2.container_port) :
    SessInv (setRow l sid r) := by
  unfold SessInv setRow
  rw [List.pairwise_map]
  refine hinv.imp_of_mem ?_
  intro a b ha hb hab
  by_cases ha1 : (a.1 == sid) = true
  · have ha1' : a.1 = sid := by simpa using ha1
    have hb1 : ¬ (b.1 == sid) = true := by
      simp only [beq_iff_eq]
      rw [← ha1']
      exact fun hh => hab.1 hh.symm
    rw [if_pos ha1, if_neg hb1]
    exact ⟨by rw [← ha1']; exact hab.1, h a ha ha1' b hb hab.1⟩
  · by_cases hb1 : (b.1 == sid) = true
    · have hb1' : b.1 = sid := by simpa using hb1
      rw [if_neg ha1, if_pos hb1]
      refine ⟨by rw [← hb1']; exact hab.1, ?_⟩
      have := h b hb hb1' a ha (fun hh => hab.1 hh.symm)
      exact this.symm
    · rw [if_neg ha1, if_neg hb1]
      exact hab

/-- Dictionary insertion of a fresh-port row preserves the invariant. -/
theorem SessInv_insert_fresh (l : List (String × SessionRow))
    (sid : String) (r : SessionRow) (hinv : SessInv l)
    (hfresh : ∀ e ∈ l, e.2.container_port ≠ r.container_port) :
    SessInv (insertSessionRow l sid r) := by
  unfold insertSessionRow
  by_cases hex : (lookupSession l sid).isSome = true
  · rw [if_pos hex]
    exact SessInv_setRow_of l sid r hinv
      (fun a _ _ b hb _ => (hfresh b hb).symm)
  · rw [if_neg hex]
    have hnone : lookupSession l sid = none :=
      Option.not_isSome_iff_eq_none.mp hex
    have hkeys := lookupSession_none_keys l sid hnone
    unfold SessInv
    rw [List.pairwise_append]
    refine ⟨hinv, by simp, ?_⟩
    intro a ha b hb
    have hb' : b = (sid, r) := by simpa using hb
    rw [hb']
    exact ⟨hkeys a ha, hfresh a ha⟩

/-- The migration step either keeps the registry or deletes one key. -/
theorem migration_sessions_cases (sessions : List (String × SessionRow))
    (fs : Fs) (u : Option UInfo) (n : String) :
    (session_migration sessions fs u n).1 = sessions ∨
    ∃ d : String, (session_migration sessions fs u n).1 =
      sessions.filter (fun e => !(e.1 == d)) := by
  unfold session_migration
  cases get_most_recent_session_with_files fs sessions u with
  | none => exact Or.inl rfl
  | some d =>
    dsimp only
    unfold cleanup_previous_session
    cases lookupSession sessions d with
    | none => exact Or.inl rfl
    | some row =>
      dsimp only
      by_cases hact : row.status = "active" ∧ row.container_obj = true
      · rw [if_pos hact]
        exact Or.inl rfl
      · rw [if_neg hact]
        exact Or.inr ⟨d, rfl⟩

/-- `cleanup_inactive_sessions` only returns (instead of deadlocking) when
no row is over age, and then the registry is unchanged. -/
theorem cleanup_inactive_sessions_unchanged (st : SMState) (now h : Int)
    (st2 : SMState) (heq : cleanup_inactive_sessions st now h = some st2) :
    st2.sessions = st.sessions := by
  unfold cleanup_inactive_sessions at heq
  by_cases hl : st.lock = true
  · rw [if_pos hl] at heq
    exact Option.noConfusion heq
  · rw [if_neg hl] at heq
    cases hold : st.sessions.filter
        (fun e => decide (now - e.2.created_at > h * 3600)) with
    | nil =>
      rw [hold] at heq
      simp only [List.map_nil, cleanupSessionList, Option.map_some'] at heq
      have h2 := Option.some.inj heq
      rw [← h2]
    | cons x rest =>
      rw [hold] at heq
      simp only [List.map_cons, cleanupSessionList] at heq
      have hlock : cleanup_session { st with lock := true } x.1 = none := by
        unfold cleanup_session
        rw [if_pos rfl]
      rw [hlock] at heq
      simp at heq

/-- The row relation of `SessInv` is symmetric. -/
theorem sessRel_symm : Symmetric (fun a b : String × SessionRow =>
    a.1 ≠ b.1 ∧ a.2.container_port ≠ b.2.container_port) :=
  fun _ _ h => ⟨h.1.symm, h.2.symm⟩

/-- In-place row updates that keep the port preserve the invariant. -/
theorem SessInv_setRow_keep_port (l : List (String × SessionRow))
    (sid : String) (row r : SessionRow) (hinv : SessInv l)
    (hrow : lookupSession l sid = some row)
    (hport : r.container_port = row.container_port) :
    SessInv (setRow l sid r) := by
  apply SessInv_setRow_of l sid r hinv
  intro a ha ha1 b hb hab
  have ha2 := lookupSession_unique l hinv sid row hrow a ha ha1
  have hR := hinv.forall sessRel_symm ha hb
    (fun hh => hab (congrArg Prod.fst hh))
  rw [hport]
  have h3 : row.container_port = a.2.container_port := by rw [ha2]
  rw [h3]
  exact hR.2

/-- `cleanup_session` preserves the registry invariant (whatever its
result, the caller's next state does). -/
theorem cleanup_session_inv (st : SMState) (sid : String)
    (hinv : SessInv st.sessions) :
    SessInv (match cleanup_session st sid with
             | none => st
             | some r => r.2).sessions := by
  unfold cleanup_session
  by_cases hl : st.lock = true
  · rw [if_pos hl]
    exact hinv
  · rw [if_neg hl]
    cases hrow : lookupSession st.sessions sid with
    | none => exact hinv
    | some row =>
      dsimp only
      by_cases hobj : row.container_obj = true
      · rw [if_pos hobj]
        show SessInv (setRow st.sessions sid
          { row with status := "cleaned", container_obj := false })
        exact SessInv_setRow_keep_port st.sessions sid row _ hinv hrow rfl
      · rw [if_neg hobj]
        exact hinv

/-- `get_session_container` preserves the registry invariant. -/
theorem get_session_container_inv (st : SMState) (sid : String)
    (pr : Probe) (hinv : SessInv st.sessions) :
    SessInv (get_session_container st sid pr).2.sessions := by
  unfold get_session_container
  cases hrow : lookupSession st.sessions sid with
  | none => exact hinv
  | some row =>
    dsimp only
    by_cases hs : row.status = "active"
    · rw [if_pos hs]
      cases pr with
      | isRunning ip =>
        dsimp only
        by_cases hip : row.container_ip = ""
        · rw [if_pos hip]
          show SessInv (setRow st.sessions sid
            { row with container_ip := ip })
          exact SessInv_setRow_keep_port st.sessions sid row _ hinv hrow rfl
        · rw [if_neg hip]
          exact hinv
      | stopped =>
        show SessInv (setRow st.sessions sid
          { row with status := "inactive" })
        exact SessInv_setRow_keep_port st.sessions sid row _ hinv hrow rfl
      | probeErr =>
        show SessInv (setRow st.sessions sid { row with status := "error" })
        exact SessInv_setRow_keep_port st.sessions sid row _ hinv hrow rfl
    · rw [if_neg hs]
      exact hinv

/-- `create_session` preserves the registry invariant: the fresh port is
checked against every tracked session under the lock before the new row is
recorded, and migration only deletes rows. -/
theorem create_session_inv (st : SMState) (sid : String) (u : Option UInfo)
    (p : CreateParams) (hinv : SessInv st.sessions) :
    SessInv (create_session st sid u p).2.sessions := by
  unfold create_session
  by_cases hl : st.lock = true
  · rw [if_pos hl]
    exact hinv
  · rw [if_neg hl]
    cases hport : find_free_port st.sessions p.os_free with
    | none => exact hinv
    | some port =>
      have hfresh := find_free_port_fresh st.sessions p.os_free port hport
      have hinv1 : SessInv (session_migration st.sessions
          (st.fs.mkdirs (outputDataDir sid)) u sid).1 := by
        rcases migration_sessions_cases st.sessions
            (st.fs.mkdirs (outputDataDir sid)) u sid with hm | ⟨d, hm⟩
        · rw [hm]; exact hinv
        · rw [hm]
          exact List.Pairwise.sublist (List.filter_sublist st.sessions) hinv
      have hfresh1 : ∀ e ∈ (session_migration st.sessions
          (st.fs.mkdirs (outputDataDir sid)) u sid).1,
          e.2.container_port ≠ some port := by
        rcases migration_sessions_cases st.sessions
            (st.fs.mkdirs (outputDataDir sid)) u sid with hm | ⟨d, hm⟩
        · rw [hm]; exact hfresh
        · rw [hm]
          intro e he
          exact hfresh e (List.mem_filter.mp he).1
      dsimp only
      by_cases hr : p.container_runs = true
      · rw [if_pos hr]
        exact SessInv_insert_fresh _ sid _ hinv1 hfresh1
      · rw [if_neg hr]
        exact hinv1

/-- The states the session registry can reach from process start: session
creation, container validation, explicit cleanup, age-based GC, and
external file uploads. -/
inductive Reach : SMState → Prop where
  | init (fs : Fs) :
      Reach { sessions := [], lock := false, fs := fs, containers := [] }
  | create (st : SMState) (sid : String) (u : Option UInfo)
      (p : CreateParams) : Reach st → Reach (create_session st sid u p).2
  | getContainer (st : SMState) (sid : String) (pr : Probe) :
      Reach st → Reach (get_session_container st sid pr).2
  | cleanup (st : SMState) (sid : String) :
      Reach st → Reach (match cleanup_session st sid with
                        | none => st
                        | some r => r.2)
  | cleanupInactive (st : SMState) (now h : Int) :
      Reach st → Reach ((cleanup_inactive_sessions st now h).getD st)
  | upload (st : SMState) (p : HPath) (f : String) :
      Reach st → Reach { st with fs := st.fs.putFile p f }

/-- Every reachable registry satisfies the port/key invariant. -/
theorem reach_SessInv (st : SMState) (h : Reach st) :
    SessInv st.sessions := by
  induction h with
  | init fs => exact List.Pairwise.nil
  | create st sid u p _ ih => exact create_session_inv st sid u p ih
  | getContainer st sid pr _ ih =>
    exact get_session_container_inv st sid pr ih
  | cleanup st sid _ ih => exact cleanup_session_inv st sid ih
  | cleanupInactive st now hh _ ih =>
    cases heq : cleanup_inactive_sessions st now hh with
    | none => exact ih
    | some st2 =>
      show SessInv st2.sessions
      rw [cleanup_inactive_sessions_unchanged st now hh st2 heq]
      exact ih
  | upload st p f _ ih => exact ih

/-- C6: at every reachable registry state no two sessions — in particular
no two `active` ones — share a `container_port`; and port allocation skips
every port already recorded against a tracked session before the new row
is recorded. -/
theorem c6_active_port_uniqueness (st : SMState) (h : Reach st) :
    (∀ a b : String × SessionRow, a ∈ st.sessions → b ∈ st.sessions →
      a.1 ≠ b.1 → a.2.status = "active" → b.2.status = "active" →
      a.2.container_port ≠ b.2.container_port) ∧
    (∀ (sessions : List (String × SessionRow)) (os_free : Nat → Bool)
       (port : Nat), find_free_port sessions os_free = some port →
      ∀ e ∈ sessions, e.2.container_port ≠ some port) := by
  constructor
  · intro a b ha hb hne _ _
    have hinv := reach_SessInv st h
    have hab : a ≠ b := fun hh => hne (congrArg Prod.fst hh)
    exact (hinv.forall sessRel_symm ha hb hab).2
  · exact find_free_port_fresh

/-- An active session row used by the `c6` witness. -/
def c6Row : SessionRow :=
  { container_id := "c6", container_obj := true, container_ip := "",
    container_port := some 5100, created_at := 0, status := "active",
    output_dir := outputDataDir "w6", user_info := none }

/-- Witness for `c6_active_port_uniqueness`: from the initial reachable
state, the allocator's next port for a registry already holding 5100 is
5101, which collides with no tracked session. -/
theorem c6_active_port_uniqueness_witness :
    c6Row.container_port ≠ some 5101 := by
  have h := (c6_active_port_uniqueness
    { sessions := [], lock := false, fs := ⟨[]⟩, containers := [] }
    (Reach.init ⟨[]⟩)).2
  exact h [("w6", c6Row)] (fun _ => true) 5101 (by decide) ("w6", c6Row)
    (by decide)

/-- The JSON body of a 200 response from `/analyze_job` (the fields the
dispatcher reads: `status`, `error` presence, `analysis_completed_early`,
`completion_reason`, `metrics.total_tokens`). -/
structure ExecResult where
  status : String
  has_error : Bool
  analysis_completed_early : Bool
  completion_reason : String
  total_tokens : Nat
deriving Repr, DecidableEq

/-- The `failed_result` dictionaries the error branches build:
`{'status': 'error', 'error': msg, 'metrics': ..., 'costs': 0}`. -/
def failedResult (tokens : Nat) : ExecResult :=
  { status := "error", has_error := true, analysis_completed_early := false,
    completion_reason := "", total_tokens := tokens }

/-- Outcome of the single outbound container RPC.  For 402 and other
errors, `parsed` is the JSON payload when `response.json()` succeeds: the
optional `error` field and `metrics.total_tokens`; `raw` is
`response.text`. -/
inductive Dispatch where
  | http200 (r : ExecResult)
  | http402 (parsed : Option (Option String × Nat)) (raw : String)
  | httpOther (code : Nat) (parsed : Option (Option String × Nat))
      (raw : String)
  | netErr (msg : String)
deriving Repr, DecidableEq

/-- Observable calls into the external collaborators, in order:
`update_user_tokens` amounts, `JobDocument.job_status` values written to
the durable store, artifact uploads to blob storage, container-log
captures, and the `update_job_status` calls. -/
structure Effects where
  ledger_updates : List Nat
  docs : List String
  uploads : List HPath
  log_captures : Nat
  updates : List JStatus
deriving Repr, DecidableEq

/-- No collaborator has been called yet. -/
def emptyEffects : Effects :=
  { ledger_updates := [], docs := [], uploads := [], log_captures := 0,
    updates := [] }

/-- `JobManager.update_job_status`: sets the status; stamps `started_at`
once when moving to `running`, stamps `completed_at` on any terminal
status; records the error when given. -/
def update_job_status (j : JobRow) (s : JStatus) (err : Option String)
    (now : Int) : JobRow :=
  let j1 := { j with status := s }
  let j2 :=
    if s = .running ∧ j1.started_at = none then
      { j1 with started_at := some now }
    else if s = .completed ∨ s = .failed ∨ s = .cancelled then
      { j1 with completed_at := some now }
    else j1
  match err with
  | some e => { j2 with error := some e }
  | none => j2

/-- The worker's running state: the job row it mutates plus the recorded
collaborator calls. -/
structure WStep where
  job : JobRow
  eff : Effects
deriving Repr, DecidableEq

/-- One `update_job_status` call made by the worker. -/
def wUpdate (w : WStep) (s : JStatus) (err : Option String) (t : Int) :
    WStep :=
  { job := update_job_status w.job s err t,
    eff := { w.eff with updates := w.eff.updates ++ [s] } }

/-- One `save_container_logs` call. -/
def logEff (eff : Effects) : Effects :=
  { eff with log_captures := eff.log_captures + 1 }

/-- The conditional `update_user_tokens` call of the 200 branch. -/
def ledgerEff (eff : Effects) (do_update : Bool) (amount : Nat) : Effects :=
  if do_update then
    { eff with ledger_updates := eff.ledger_updates ++ [amount] }
  else eff

/-- The `job_status` computed by `save_job_to_firestore`: `failed` iff the
execution status is `error`, an error is present, or the completion reason
is `token_limit_reached`. -/
def firestore_job_status (r : ExecResult) : String :=
  if r.status = "error" ∨ r.has_error = true ∨
      r.completion_reason = "token_limit_reached"
  then "failed" else "success"

/-- `JobManager.save_job_to_firestore`: returns `False` without writing
anything when the job has no owner email; otherwise uploads the report
artifact to blob storage only for a `success` status with the report on
disk, and writes the durable `JobDocument` with the computed status. -/
def save_job_to_firestore (job : JobRow) (eff : Effects) (r : ExecResult)
    (report_on_disk : Bool) : Bool × Effects :=
  if uinfoEmail job.user_info = "" then (false, eff)
  else if firestore_job_status r = "success" ∧ report_on_disk then
    (true, { eff with
      uploads := eff.uploads ++ [job.output_dir ++
        ["analysis_report.html"]],
      docs := eff.docs ++ [firestore_job_status r] })
  else (true, { eff with docs := eff.docs ++ [firestore_job_status r] })

/-- Inputs of one worker run: the Session Registry answer, the token-ledger
lookup for the owner, the RPC outcome, whether `analysis_report.html`
exists on disk afterwards, and the two clock readings. -/
structure WorkerEnv where
  session : Option SessionRow
  user_lookup : Option (Nat × Nat)
  dispatch : Dispatch
  report_on_disk : Bool
  t1 : Int
  t2 : Int

/-- The `execute_job` worker of `JobManager.start_job_execution`: moves the
job to `running` first, then resolves the session and its port (failing
with a descriptive error when either is missing), then issues the RPC once
and interprets the response: 200 → conditional ledger update, log capture,
Firestore save, status `completed` unconditionally; 402 → log capture,
durable `failed` document, status `failed` tagged `TOKEN_LIMIT_EXCEEDED`
when the payload parses; other codes and network errors → log capture,
durable `failed` document, status `failed` with the raw message. -/
def execute_job (job : JobRow) (env : WorkerEnv) : WStep :=
  let w1 := wUpdate { job := job, eff := emptyEffects } .running none
    env.t1
  match env.session with
  | none =>
    wUpdate w1 .failed
      (some ("Session " ++ job.session_id ++ " not found or inactive"))
      env.t2
  | some srow =>
    match srow.container_port with
    | none =>
      wUpdate w1 .failed
        (some ("Cannot determine container port for session: " ++
          job.session_id)) env.t2
    | some _port =>
      match env.dispatch with
      | .http200 r =>
        wUpdate
          { w1 with eff :=
              (save_job_to_firestore job
                (logEff (ledgerEff w1.eff
                  (decide (uinfoEmail job.user_info ≠ "" ∧
                    env.user_lookup.isSome = true ∧ 0 < r.total_tokens))
                  r.total_tokens))
                r env.report_on_disk).2 }
          .completed none env.t2
      | .http402 parsed raw =>
        match parsed with
        | some pr =>
          wUpdate
            { w1 with eff :=
                (save_job_to_firestore job (logEff w1.eff)
                  (failedResult pr.2) env.report_on_disk).2 }
            .failed
            (some ("TOKEN_LIMIT_EXCEEDED: " ++
              (pr.1.getD "Token limit exceeded"))) env.t2
        | none =>
          wUpdate
            { w1 with eff :=
                (save_job_to_firestore job (logEff w1.eff)
                  (failedResult 0) env.report_on_disk).2 }
            .failed (some ("Token limit exceeded (HTTP 402): " ++ raw))
            env.t2
      | .httpOther code parsed raw =>
        match parsed with
        | some pr =>
          wUpdate
            { w1 with eff :=
                (save_job_to_firestore job (logEff w1.eff)
                  (failedResult pr.2) env.report_on_disk).2 }
            .failed (some ("Analysis failed: " ++ (pr.1.getD raw))) env.t2
        | none =>
          wUpdate
            { w1 with eff :=
                (save_job_to_firestore job (logEff w1.eff)
                  (failedResult 0) env.report_on_disk).2 }
            .failed (some ("Container API returned error: " ++
              toString code ++ " - " ++ raw)) env.t2
      | .netErr msg =>
        wUpdate
          { w1 with eff :=
              (save_job_to_firestore job (logEff w1.eff)
                (failedResult 0) env.report_on_disk).2 }
          .failed
          (some ("Error communicating with container API: " ++ msg))
          env.t2

/-- A freshly created `pending` job used by the worker scenarios. -/
def wJob : JobRow :=
  { job_id := "JOB_9", session_id := "S9", status := .pending,
    query := "q", model := "gpt-4.1-mini", created_at := 0,
    started_at := none, completed_at := none, error := none,
    container_port := some 5150,
    output_dir := outputDataDir "S9" ++ ["JOB_9"],
    input_dir := inputDataDir "S9",
    user_info := some { email := some "a@x.com" } }

/-- The live session row the worker scenarios resolve. -/
def wRow : SessionRow :=
  { container_id := "c9", container_obj := true, container_ip := "ip",
    container_port := some 5150, created_at := 0, status := "active",
    output_dir := outputDataDir "S9", user_info :=
      some { email := some "a@x.com" } }

/-- The dispatch-time-failure environment: the session cannot be
resolved. -/
def c2Env : WorkerEnv :=
  { session := none, user_lookup := none, dispatch := .netErr "unused",
    report_on_disk := false, t1 := 11, t2 := 12 }

/-- C2 counterexample: the claim says a dispatch-time failure (session
unresolvable, before the container is contacted) moves `pending → failed`
directly and `started_at` is never set in that case.  The worker instead
transitions the job to `running` (stamping `started_at`) *before* resolving
the session, so the run goes `pending → running → failed` with
`started_at = some t1`. -/
theorem c2_dispatch_failure_sets_started_at :
    (execute_job wJob c2Env).job.status = .failed ∧
    (execute_job wJob c2Env).job.started_at = some 11 ∧
    (execute_job wJob c2Env).eff.updates = [.running, .failed] := by
  decide

/-- The transition relation the (amended) claim allows. -/
def allowedStep : JStatus → JStatus → Prop := fun a b =>
  (a = .pending ∧ b = .running) ∨
  (a = .running ∧ (b = .completed ∨ b = .failed ∨ b = .cancelled))

/-- C2 (amended): every worker run of a `pending` job performs exactly the
update sequence `running` then a terminal status in `{completed, failed}`;
all transitions lie in `pending→running→{completed|failed|cancelled}`.
Amendment forced by the counterexample: there is no direct
`pending→failed` path — a dispatch-time failure also passes through
`running`, so `started_at` is always stamped (and `completed_at` once,
at the terminal update). -/
theorem c2_amended_status_monotonic (job : JobRow) (env : WorkerEnv)
    (h0 : job.status = .pending) (h1 : job.started_at = none) :
    ∃ t : JStatus, (t = .completed ∨ t = .failed) ∧
      (execute_job job env).eff.updates = [.running, t] ∧
      List.Chain' allowedStep
        (job.status :: (execute_job job env).eff.updates) ∧
      (execute_job job env).job.status = t ∧
      (execute_job job env).job.started_at = some env.t1 ∧
      (execute_job job env).job.completed_at = some env.t2 := by
  have hsave : ∀ (j : JobRow) (eff : Effects) (r : ExecResult) (b : Bool),
      (save_job_to_firestore j eff r b).2.updates = eff.updates := by
    intro j eff r b
    unfold save_job_to_firestore
    split_ifs <;> rfl
  have hledger : ∀ (eff : Effects) (b : Bool) (a : Nat),
      (ledgerEff eff b a).updates = eff.updates := by
    intro eff b a
    unfold ledgerEff
    split_ifs <;> rfl
  cases hs : env.session with
  | none =>
    refine ⟨.failed, Or.inr rfl, ?_, ?_, ?_, ?_, ?_⟩ <;>
      simp [execute_job, hs, wUpdate, update_job_status, emptyEffects,
        h0, h1, allowedStep, List.chain'_cons]
  | some srow =>
    cases hp : srow.container_port with
    | none =>
      refine ⟨.failed, Or.inr rfl, ?_, ?_, ?_, ?_, ?_⟩ <;>
        simp [execute_job, hs, hp, wUpdate, update_job_status,
          emptyEffects, h0, h1, allowedStep, List.chain'_cons]
    | some port =>
      cases hd : env.dispatch with
      | http200 r =>
        refine ⟨.completed, Or.inl rfl, ?_, ?_, ?_, ?_, ?_⟩ <;>
          simp [execute_job, hs, hp, hd, wUpdate, update_job_status,
            emptyEffects, h0, h1, allowedStep, List.chain'_cons, hsave,
            hledger, logEff]
      | http402 parsed raw =>
        cases parsed with
        | some pr =>
          refine ⟨.failed, Or.inr rfl, ?_, ?_, ?_, ?_, ?_⟩ <;>
            simp [execute_job, hs, hp, hd, wUpdate, update_job_status,
              emptyEffects, h0, h1, allowedStep, List.chain'_cons, hsave,
              logEff]
        | none =>
          refine ⟨.failed, Or.inr rfl, ?_, ?_, ?_, ?_, ?_⟩ <;>
            simp [execute_job, hs, hp, hd, wUpdate, update_job_status,
              emptyEffects, h0, h1, allowedStep, List.chain'_cons, hsave,
              logEff]
      | httpOther code parsed raw =>
        cases parsed with
        | some pr =>
          refine ⟨.failed, Or.inr rfl, ?_, ?_, ?_, ?_, ?_⟩ <;>
            simp [execute_job, hs, hp, hd, wUpdate, update_job_status,
              emptyEffects, h0, h1, allowedStep, List.chain'_cons, hsave,
              logEff]
        | none =>
          refine ⟨.failed, Or.inr rfl, ?_, ?_, ?_, ?_, ?_⟩ <;>
            simp [execute_job, hs, hp, hd, wUpdate, update_job_status,
              emptyEffects, h0, h1, allowedStep, List.chain'_cons, hsave,
              logEff]
      | netErr msg =>
        refine ⟨.failed, Or.inr rfl, ?_, ?_, ?_, ?_, ?_⟩ <;>
          simp [execute_job, hs, hp, hd, wUpdate, update_job_status,
            emptyEffects, h0, h1, allowedStep, List.chain'_cons, hsave,
            logEff]

/-- Witness for `c2_amended_status_monotonic` at the concrete
dispatch-failure scenario. -/
theorem c2_amended_status_monotonic_witness :
    (execute_job wJob c2Env).job.started_at = some c2Env.t1 ∧
    (execute_job wJob c2Env).job.completed_at = some c2Env.t2 := by
  obtain ⟨t, ht, hupd, hchain, hstat, hstart, hcomp⟩ :=
    c2_amended_status_monotonic wJob c2Env (by decide) (by decide)
  exact ⟨hstart, hcomp⟩

/-- A 200 payload signalling early completion by token exhaustion. -/
def rTokEx : ExecResult :=
  { status := "success", has_error := false,
    analysis_completed_early := true,
    completion_reason := "token_limit_reached", total_tokens := 1200 }

/-- A fully successful 200 payload. -/
def rOk : ExecResult :=
  { status := "success", has_error := false,
    analysis_completed_early := false, completion_reason := "",
    total_tokens := 800 }

/-- The token-exhausted-200 environment. -/
def c3Env : WorkerEnv :=
  { session := some wRow, user_lookup := some (0, 10000),
    dispatch := .http200 rTokEx, report_on_disk := true, t1 := 21,
    t2 := 22 }

/-- The fully-successful-200 environment. -/
def c3EnvOk : WorkerEnv :=
  { session := some wRow, user_lookup := some (0, 10000),
    dispatch := .http200 rOk, report_on_disk := true, t1 := 21, t2 := 22 }

/-- C3: on a 200 response whose payload signals early completion by token
exhaustion, the durable job document is written with status `failed` and
no artifact is uploaded (as the claim says) — but the registry job status
is still set to `completed`: the 200 branch computes `job_is_successful`
and then never uses it, calling `update_job_status(COMPLETED)`
unconditionally, so the job is *not* recorded as failed.  A fully
successful 200 gets the upload, a `success` document and `completed`. -/
theorem c3_token_exhausted_marked_completed :
    (execute_job wJob c3Env).eff.docs = ["failed"] ∧
    (execute_job wJob c3Env).eff.uploads = [] ∧
    (execute_job wJob c3Env).eff.ledger_updates = [1200] ∧
    (execute_job wJob c3Env).job.status = .completed ∧
    (execute_job wJob c3EnvOk).eff.docs = ["success"] ∧
    (execute_job wJob c3EnvOk).eff.uploads =
      [outputDataDir "S9" ++ ["JOB_9", "analysis_report.html"]] ∧
    (execute_job wJob c3EnvOk).job.status = .completed := by
  decide

/-- The 402 environment with a parseable payload. -/
def c4Env : WorkerEnv :=
  { session := some wRow, user_lookup := some (5, 10),
    dispatch := .http402 (some (some "limit reached", 0)) "raw",
    report_on_disk := true, t1 := 31, t2 := 32 }

/-- C4 counterexample: on HTTP 402 the job does end `failed` with an error
tagged `TOKEN_LIMIT_EXCEEDED` and a durable job document is written, but
the owner's persistent token ledger is *not* updated — the only
`update_user_tokens` call lives in the 200 branch, and the 402 branch
never touches the ledger, contradicting the claim. -/
theorem c4_ledger_not_updated_on_402 :
    (execute_job wJob c4Env).job.status = .failed ∧
    (execute_job wJob c4Env).job.error =
      some "TOKEN_LIMIT_EXCEEDED: limit reached" ∧
    (execute_job wJob c4Env).eff.docs = ["failed"] ∧
    (execute_job wJob c4Env).eff.ledger_updates = [] := by
  decide

/-- C4 (amended): a 402 container response with a parseable payload, for a
job with an owner email, ends in status `failed` with its error tagged
`TOKEN_LIMIT_EXCEEDED`, and the durable job document is still written
(status `failed`, no artifact upload) — but the persistent token ledger is
never updated in this path. -/
theorem c4_amended_402_no_ledger (job : JobRow) (env : WorkerEnv)
    (srow : SessionRow) (port : Nat) (errMsg : Option String) (tokens : Nat)
    (raw : String) (hs : env.session = some srow)
    (hp : srow.container_port = some port)
    (hd : env.dispatch = .http402 (some (errMsg, tokens)) raw)
    (he : uinfoEmail job.user_info ≠ "") :
    (execute_job job env).job.status = .failed ∧
    (execute_job job env).job.error =
      some ("TOKEN_LIMIT_EXCEEDED: " ++ (errMsg.getD "Token limit exceeded"))
      ∧
    (execute_job job env).eff.docs = ["failed"] ∧
    (execute_job job env).eff.uploads = [] ∧
    (execute_job job env).eff.ledger_updates = [] := by
  refine ⟨?_, ?_, ?_, ?_, ?_⟩ <;>
    simp [execute_job, hs, hp, hd, wUpdate, update_job_status,
      emptyEffects, save_job_to_firestore, firestore_job_status,
      failedResult, logEff, he]

/-- Witness for `c4_amended_402_no_ledger` at the concrete 402 scenario. -/
theorem c4_amended_402_no_ledger_witness :
    (execute_job wJob c4Env).job.error =
      some "TOKEN_LIMIT_EXCEEDED: limit reached" ∧
    (execute_job wJob c4Env).eff.uploads = [] := by
  obtain ⟨h1, h2, h3, h4, h5⟩ := c4_amended_402_no_ledger wJob c4Env wRow
    5150 (some "limit reached") 0 "raw" rfl rfl rfl (by decide)
  exact ⟨h2, h4⟩
